import Mathlib

/-!
# Verification of the sea-temperature tile cache

Shallow embedding of the repository's core (`app/services/sst_cache.py`,
`app/services/geo.py`, `app/main.py`, `app/database.py`).

Modelling conventions:

* Latitudes, longitudes and temperatures are Python floats in the source; they
  are modelled as exact rationals (`ℚ`).  Python's float `%` with a positive
  divisor agrees with the mathematical `x - y*⌊x/y⌋` used here.
* Dates are ISO strings in the source (`"2024-05-01"`), manipulated only by
  equality comparison (SQL keys) and by `datetime.fromisoformat(date) -
  timedelta(days=1)`.  Valid ISO dates are in bijection with day numbers, so a
  date is modelled as an integer day number and the previous day as `d - 1`.
* The SQLite tables `sst_tile` and `sst_grid` (schema in `app/database.py`)
  are modelled as lists of rows in a `Store` structure; `INSERT OR REPLACE`
  removes any row with the same primary key before prepending the new row, and
  `SELECT ... WHERE` is a list filter (SQL `BETWEEN` is inclusive on both
  ends).  A whole `store_tile` call commits once, so it is a single function
  on `Store` — atomic with respect to readers, as in the source.
* The external Copernicus SDK (`copernicusmarine.open_dataset` plus the
  xarray/numpy post-processing of `fetch_tile_from_copernicus`) is outside the
  repository; it is a parameter `Adapter : Date → TileId → Except PyExn (List Point)`
  returning the processed grid points of one tile for one date, or raising.
  Exceptions are modelled by `Except`, with two distinguishable kinds so that
  "provider has no data" and infrastructure faults can be told apart.
* Effectful operations pass the `Store` explicitly and also return a `Trace`:
  the list of `(date, tile)` arguments of every adapter invocation they made,
  so that "never fetches" and "fetched exactly once" are provable statements.
* The real-valued geodesic helpers of `geo.py` (`haversine_km`,
  `bbox_for_radius_km`) use transcendental functions (`sin`, `cos`, `asin`);
  they are passed as an abstract `Geo` parameter, while the exactly
  representable helpers (`wrap_lon_180`, `wrap_lon_360`) are defined directly.
-/

/-- A calendar date, as the day number of the source's ISO date string
(`datetime.fromisoformat(date) - timedelta(days=1)` becomes `d - 1`). -/
abbrev Date := ℤ

/-- One grid sample `(lat, lon, temp_c)` as produced by
`fetch_tile_from_copernicus` and consumed by `store_tile`. -/
abbrev Point := ℚ × ℚ × ℚ

/-- Exception kinds.  The source works with untyped Python exceptions; two
distinguishable kinds suffice to model the error-taxonomy claims:
`dataUnavailable` (the provider has no data for the requested date) and
`infra` (store/transport faults, carrying an arbitrary code). -/
inductive PyExn where
  | dataUnavailable : PyExn
  | infra : ℕ → PyExn
deriving DecidableEq, Repr

/-- The external Data Source Adapter: `copernicusmarine.open_dataset` for one
tile's bbox and one date, composed with the pure numpy post-processing of
`fetch_tile_from_copernicus` (variable pick, Kelvin→Celsius, NaN masking,
`wrap_lon_180` of the sample longitudes).  All of that lives outside the
repository; the adapter returns the resulting point list or the exception. -/
def Adapter : Type := Date → (ℤ × ℤ) → Except PyExn (List Point)

/-- Trace of adapter invocations: the `(date, tile)` of each call, in order. -/
abbrev Trace := List (Date × (ℤ × ℤ))

/-! ## geo.py: exactly representable helpers -/

/-- Python's float modulo for a positive divisor: `x - y*⌊x/y⌋`. -/
def qmod (x y : ℚ) : ℚ := x - y * ⌊x / y⌋

/-- `geo.wrap_lon_180`: `((lon + 180) % 360) - 180`, lands in `[-180, 180)`. -/
def wrap_lon_180 (lon : ℚ) : ℚ := qmod (lon + 180) 360 - 180

/-- `geo.wrap_lon_360`: `lon % 360`, lands in `[0, 360)`. -/
def wrap_lon_360 (lon : ℚ) : ℚ := qmod lon 360

/-- A bounding box, as the dicts built throughout `sst_cache.py`. -/
structure Bbox where
  min_lat : ℚ
  max_lat : ℚ
  min_lon : ℚ
  max_lon : ℚ
deriving DecidableEq, Repr

/-- The transcendental helpers of `geo.py`, abstract because `sin`/`cos`/
`asin` have no exact rational embedding: `haversine_km` (great-circle
distance, Earth radius 6371 km) and `bbox_for_radius_km`
(`Δlat = r/111`, `Δlon = r/(111·cos lat)`). -/
structure Geo where
  haversine_km : ℚ → ℚ → ℚ → ℚ → ℚ
  bbox_for_radius_km : ℚ → ℚ → ℚ → Bbox

/-! ## Tile addressing -/

/-- `TILE_DEG = 2.0`: tile angular size. -/
def TILE_DEG : ℚ := 2

/-- `tile_origin(value, step) = math.floor(value / step) * step`. -/
def tile_origin (value step : ℚ) : ℚ := ⌊value / step⌋ * step

/-- A tile identifier.  The source formats it as the string
`f"{a:.0f}_{o:.0f}"` where `a = tile_origin(lat, TILE_DEG)` and
`o = tile_origin(lon, TILE_DEG)` are integer-valued floats (multiples of
2.0), so `:.0f` prints them exactly and the string is a bijective encoding of
the integer pair `(a, o)`; the pair is used as the identifier here. -/
abbrev TileId := ℤ × ℤ

/-- `tile_id_for(lat, lon)`: the pair of integer-valued tile origins that the
source formats into the id string. -/
def tile_id_for (lat lon : ℚ) : TileId :=
  (⌊tile_origin lat TILE_DEG⌋, ⌊tile_origin lon TILE_DEG⌋)

/-- `tile_bbox(tile_id)`: parses the two origins back (`float` of each part
of the split string) and spans one `TILE_DEG` from each. -/
def tile_bbox (t : TileId) : Bbox :=
  { min_lat := (t.1 : ℚ)
    max_lat := (t.1 : ℚ) + TILE_DEG
    min_lon := (t.2 : ℚ)
    max_lon := (t.2 : ℚ) + TILE_DEG }

/-! ## The persistent store (`app/database.py` schema) -/

/-- A row of `sst_tile`: primary key `(date, tile_id)` plus `fetched_at`
(the wall-clock timestamp `datetime.now(...).isoformat()`, modelled as an
abstract `ℕ` supplied by the caller). -/
structure TileRow where
  date : Date
  tileId : TileId
  fetchedAt : ℕ
deriving DecidableEq, Repr

/-- A row of `sst_grid`: primary key `(date, tile_id, lat, lon)`. -/
structure GridRow where
  date : Date
  tileId : TileId
  lat : ℚ
  lon : ℚ
  temp : ℚ
deriving DecidableEq, Repr

/-- The SQLite database: the two tables of `init_db`. -/
structure Store where
  tiles : List TileRow
  grid : List GridRow
deriving DecidableEq, Repr

/-- `tile_exists(date, tile_id)`: `SELECT 1 FROM sst_tile WHERE date=? AND
tile_id=? LIMIT 1` is non-empty. -/
def tile_exists (d : Date) (t : TileId) (s : Store) : Bool :=
  s.tiles.any fun r => decide (r.date = d ∧ r.tileId = t)

/-- `INSERT OR REPLACE INTO sst_grid`: drop any row with the same primary key
`(date, tile_id, lat, lon)`, then add the new row. -/
def insert_grid_row (r : GridRow) (g : List GridRow) : List GridRow :=
  r :: g.filter fun q =>
    !decide (q.date = r.date ∧ q.tileId = r.tileId ∧ q.lat = r.lat ∧ q.lon = r.lon)

/-- `store_tile(date, tile_id, points)`: delete the key's grid rows, insert
the fresh points one by one (counting `n += 1` per point as the source loop
does), upsert the `sst_tile` row, commit once.  Returns `(n, new store)`. -/
def store_tile (d : Date) (t : TileId) (points : List Point) (now : ℕ)
    (s : Store) : ℕ × Store :=
  let grid0 := s.grid.filter fun r => !decide (r.date = d ∧ r.tileId = t)
  let inserted := points.foldl
    (fun (acc : List GridRow × ℕ) p =>
      (insert_grid_row { date := d, tileId := t, lat := p.1, lon := p.2.1, temp := p.2.2 } acc.1,
       acc.2 + 1))
    (grid0, 0)
  let tiles' : List TileRow :=
    { date := d, tileId := t, fetchedAt := now } ::
      s.tiles.filter fun r => !decide (r.date = d ∧ r.tileId = t)
  (inserted.2, { tiles := tiles', grid := inserted.1 })

/-! ## Fetching (`_open_sst_dataset`, `fetch_tile_from_copernicus`, `ensure_tile`) -/

/-- `_open_sst_dataset(tile_id, date, ...)`: try the adapter at `date`; on
any exception retry once at the previous day; if that also raises, re-raise
the second exception.  (The source's `if ds is None: raise RuntimeError`
guard on the fallback is one more way for the fallback attempt to fail,
which the `Except` result of the adapter already covers.)  Also returns the
trace of adapter invocations. -/
def open_sst_dataset (A : Adapter) (t : TileId) (d : Date) :
    Except PyExn (List Point) × Trace :=
  match A d t with
  | .ok ds => (.ok ds, [(d, t)])
  | .error _ =>
    match A (d - 1) t with
    | .ok ds => (.ok ds, [(d, t), (d - 1, t)])
    | .error e2 => (.error e2, [(d, t), (d - 1, t)])

/-- `ensure_tile(date, tile_id)`: under the per-key lock (sequential here;
the interleaved model is in namespace `SingleFlight` below): cache hit
returns 0 without fetching; otherwise fetch (`fetch_tile_from_copernicus`,
whose bbox/longitude-convention plumbing feeds the adapter) and `store_tile`
on success; a fetch exception propagates before anything is written. -/
def ensure_tile (A : Adapter) (now : ℕ) (d : Date) (t : TileId) (s : Store) :
    Except PyExn ℕ × Store × Trace :=
  if tile_exists d t s then (.ok 0, s, [])
  else
    match open_sst_dataset A t d with
    | (.ok points, tr) =>
      let r := store_tile d t points now s
      (.ok r.1, r.2, tr)
    | (.error e, tr) => (.error e, s, tr)

/-! ## Query engine (`query_points_in_bbox`, `point_temperature`) -/

/-- `query_points_in_bbox(date, bbox)`: the two SQL branches of the source.
No seam crossing (`min_lon <= max_lon`): `lat BETWEEN ? AND ? AND lon
BETWEEN ? AND ?`.  Seam crossing: `lon BETWEEN ? AND 180 OR lon BETWEEN
-180 AND ?`.  `BETWEEN` is inclusive on both ends; the projection keeps
`(lat, lon, temp_c)`. -/
def query_points_in_bbox (d : Date) (bb : Bbox) (s : Store) : List Point :=
  if bb.min_lon ≤ bb.max_lon then
    (s.grid.filter fun r => decide (r.date = d ∧
        (bb.min_lat ≤ r.lat ∧ r.lat ≤ bb.max_lat) ∧
        (bb.min_lon ≤ r.lon ∧ r.lon ≤ bb.max_lon))).map
      fun r => (r.lat, r.lon, r.temp)
  else
    (s.grid.filter fun r => decide (r.date = d ∧
        (bb.min_lat ≤ r.lat ∧ r.lat ≤ bb.max_lat) ∧
        ((bb.min_lon ≤ r.lon ∧ r.lon ≤ 180) ∨ (-180 ≤ r.lon ∧ r.lon ≤ bb.max_lon)))).map
      fun r => (r.lat, r.lon, r.temp)

/-- Python's `round(x, 2)` on the exact value: round `x*100` to the nearest
integer, ties to the even integer (banker's rounding), divide by 100. -/
def roundHalfEven (q : ℚ) : ℤ :=
  let n := ⌊q⌋
  let f := q - n
  if f < 1/2 then n
  else if 1/2 < f then n + 1
  else if n % 2 = 0 then n else n + 1

/-- `round(x, 2)`. -/
def round2 (q : ℚ) : ℚ := (roundHalfEven (q * 100) : ℚ) / 100

/-- The structured result dict of `point_temperature`.  The `unavailable`
shape carries no `mean_c`/`min_c`/`max_c`/`cells_used` keys; both shapes echo
the inputs and the `debug` fields `tile_id` and `tile_fetched_now`. -/
inductive PTResult where
  | unavailable (date : Date) (lat lon radius_km : ℚ)
      (tile_id : TileId) (tile_fetched_now : ℕ)
  | ok (date : Date) (lat lon radius_km : ℚ)
      (mean_c min_c max_c : ℚ) (cells_used : ℕ)
      (tile_id : TileId) (tile_fetched_now : ℕ)
deriving DecidableEq, Repr

/-- `point_temperature(date, lat, lon, radius_km)`: wrap `lon`, ensure the
containing tile (an `ensure_tile` exception propagates), build the radius
bbox, wrap its longitudes, run the seam-aware grid SELECT (the source
inlines two SQL queries that are textually identical to the two branches of
`query_points_in_bbox`, so that definition is reused here), keep the
temperatures within `radius_km` by haversine distance, and build the result
dict. -/
def point_temperature (g : Geo) (A : Adapter) (now : ℕ) (d : Date)
    (lat lon radius_km : ℚ) (s : Store) :
    Except PyExn PTResult × Store × Trace :=
  let lon := wrap_lon_180 lon
  let t_id := tile_id_for lat lon
  match ensure_tile A now d t_id s with
  | (.error e, s', tr) => (.error e, s', tr)
  | (.ok fetched, s', tr) =>
    let bb0 := g.bbox_for_radius_km lat lon radius_km
    let bb : Bbox := { bb0 with
      min_lon := wrap_lon_180 bb0.min_lon, max_lon := wrap_lon_180 bb0.max_lon }
    let rows : List Point := query_points_in_bbox d bb s'
    let temps : List ℚ :=
      (rows.filter fun p => decide (g.haversine_km lat lon p.1 p.2.1 ≤ radius_km)).map
        fun p => p.2.2
    match temps with
    | [] => (.ok (.unavailable d lat lon radius_km t_id fetched), s', tr)
    | t0 :: rest =>
      (.ok (.ok d lat lon radius_km
        (round2 ((t0 :: rest).sum / ((t0 :: rest).length : ℚ)))
        (round2 (rest.foldl min t0))
        (round2 (rest.foldl max t0))
        (t0 :: rest).length t_id fetched), s', tr)

/-! ## The grid-fill endpoint (`main.get_grid`) and the passive area endpoint -/

/-- Number of iterations of the loop `x = lo; while x <= hi: ...; x += 2.0`. -/
def gridSteps (lo hi : ℚ) : ℕ :=
  if lo ≤ hi then (⌊(hi - lo) / 2⌋).toNat + 1 else 0

/-- The values taken by the loop variable of `x = lo; while x <= hi: x += 2.0`
(the sweep in `main.get_grid`), in order: `lo, lo+2, ...` while `≤ hi`.
Defined in closed form so it evaluates; `gridLoop_unfold` below certifies it
satisfies exactly the loop's recurrence. -/
def gridLoop (lo hi : ℚ) : List ℚ :=
  (List.range (gridSteps lo hi)).map fun i : ℕ => lo + 2 * (i : ℚ)

/-- The tiles the sweep of `main.get_grid` passes to `ensure_tile`:
`tile_id_for(lat, lon)` for each sample `(lat, lon)` of the two nested
loops. -/
def sweep_tiles (south west north east : ℚ) : List TileId :=
  (gridLoop south north).flatMap fun la =>
    (gridLoop west east).map fun lo => tile_id_for la lo

/-- Sequentially `ensure_tile` each tile of a list, stopping at the first
exception (which propagates out of `get_grid`, which has no try/except). -/
def ensure_tiles (A : Adapter) (now : ℕ) (d : Date) :
    List TileId → Store → Except PyExn Unit × Store × Trace
  | [], s => (.ok (), s, [])
  | t :: ts, s =>
    match ensure_tile A now d t s with
    | (.ok _, s', tr) =>
      match ensure_tiles A now d ts s' with
      | (r, s'', tr') => (r, s'', tr ++ tr')
    | (.error e, s', tr) => (.error e, s', tr)

/-- `main.get_grid(bbox)` with `bbox = "south,west,north,east"` already
parsed: sweep `ensure_tile` over the sampled tile origins, then
`query_points_in_bbox` on the resulting store, rounding each returned
temperature to 2 decimals. -/
def get_grid (A : Adapter) (now : ℕ) (today : Date)
    (south west north east : ℚ) (s : Store) :
    Except PyExn (List Point) × Store × Trace :=
  match ensure_tiles A now today (sweep_tiles south west north east) s with
  | (.ok _, s', tr) =>
    (.ok ((query_points_in_bbox today
        { min_lat := south, max_lat := north, min_lon := west, max_lon := east } s').map
      fun p => (p.1, p.2.1, round2 p.2.2)), s', tr)
  | (.error e, s', tr) => (.error e, s', tr)

/-- HTTP-layer error kinds of `main.api_area`. -/
inductive HttpErr where
  | e422 : HttpErr
  | e503 : HttpErr
deriving DecidableEq, Repr

/-- `main.api_area`: validate `min_lat < max_lat` (else 422), then the pure
`query_points_in_bbox` at yesterday's date (`today` parameter); the
`except` branch returning 503 is unreachable because the query raises
nothing in this model.  Returns the date and points, the untouched store,
and the empty adapter trace. -/
def api_area (today : Date) (min_lat max_lat min_lon max_lon : ℚ) (s : Store) :
    Except HttpErr (Date × List Point) × Store × Trace :=
  if max_lat ≤ min_lat then (.error .e422, s, [])
  else
    (.ok (today, query_points_in_bbox today
      { min_lat := min_lat, max_lat := max_lat, min_lon := min_lon, max_lon := max_lon } s),
     s, [])

/-! ## Interleaved model of `ensure_tile` under the per-tile lock

`ensure_tile` runs `with _tile_lock(f"{date}:{tile_id}"): ...` on many
request threads.  `_tile_lock` returns one `threading.Lock` per key (the
registry itself is guarded by `_TILE_LOCKS_GUARD`, so all threads share the
same lock object for the same key).  For `n` threads that all call
`ensure_tile` with the same `(date, tile_id)`, each thread is at one of the
program points of `ensure_tile`'s body, and a scheduler interleaves their
steps; the external fetch is the only long-running region, entered and left
by distinct transitions so that "a fetch is in flight" is visible in the
state. -/

namespace SingleFlight

/-- Program counter of one thread inside `ensure_tile`:
before the `with` (waiting to acquire), holding the lock before the
`tile_exists` check, inside the `fetch_tile_from_copernicus` call, or
returned with a value (the lock released by leaving the `with` block). -/
inductive PC where
  | start : PC
  | locked : PC
  | fetching : PC
  | done : ℕ → PC
deriving DecidableEq, Repr

/-- Global state: each thread's program point, the holder of the per-key
lock (`none` = free), the SQLite store, and how many times the external
adapter has been invoked. -/
structure SFState (n : ℕ) where
  pc : Fin n → PC
  lock : Option (Fin n)
  store : Store
  calls : ℕ

/-- All `n` threads about to call `ensure_tile d t`, lock free, store `s0`,
no adapter invocation yet. -/
def initState (n : ℕ) (s0 : Store) : SFState n :=
  { pc := fun _ => .start, lock := none, store := s0, calls := 0 }

/-- One scheduler step for the key `(d, t)` with fetched points `pts` and
timestamp `now`: acquire the free lock; observe a cache hit and return 0;
start the external fetch after observing a miss (one adapter invocation);
or finish the fetch, `store_tile` the points, return their count and
release the lock. -/
inductive Step (d : Date) (t : TileId) (pts : List Point) (now : ℕ) :
    SFState n → SFState n → Prop where
  | acquire (s : SFState n) (i : Fin n) :
      s.pc i = .start → s.lock = none →
      Step d t pts now s
        { s with pc := Function.update s.pc i .locked, lock := some i }
  | hit (s : SFState n) (i : Fin n) :
      s.pc i = .locked → tile_exists d t s.store = true →
      Step d t pts now s
        { s with pc := Function.update s.pc i (.done 0), lock := none }
  | startFetch (s : SFState n) (i : Fin n) :
      s.pc i = .locked → tile_exists d t s.store = false →
      Step d t pts now s
        { s with pc := Function.update s.pc i .fetching, calls := s.calls + 1 }
  | finishFetch (s : SFState n) (i : Fin n) :
      s.pc i = .fetching →
      Step d t pts now s
        { s with pc := Function.update s.pc i (.done pts.length),
                 lock := none, store := (store_tile d t pts now s.store).2 }

/-- States reachable from the initial state by interleaving. -/
inductive Reach (d : Date) (t : TileId) (pts : List Point) (now : ℕ)
    (s0 : Store) : SFState n → Prop where
  | init : Reach d t pts now s0 (initState n s0)
  | step {s s' : SFState n} :
      Reach d t pts now s0 s → Step d t pts now s s' → Reach d t pts now s0 s'

/-- Inductive invariant: a thread at `locked` or `fetching` holds the lock;
a fetch is in flight only while the tile is absent; once any thread has
returned, the tile is present; once the tile is present the adapter has run
exactly once; while it is absent, the call count is 1 or 0 according to
whether a fetch is in flight. -/
def Inv (d : Date) (t : TileId) (s : SFState n) : Prop :=
  (∀ i, s.pc i = .locked ∨ s.pc i = .fetching → s.lock = some i) ∧
  (∀ i, s.pc i = .fetching → tile_exists d t s.store = false) ∧
  (∀ i r, s.pc i = .done r → tile_exists d t s.store = true) ∧
  (tile_exists d t s.store = true → s.calls = 1) ∧
  (tile_exists d t s.store = false →
    ((∃ i, s.pc i = .fetching) → s.calls = 1) ∧
    ((∀ i, s.pc i ≠ .fetching) → s.calls = 0))

/-! A concrete two-thread schedule used to exhibit a complete run: thread 0
acquires, misses, fetches and stores; thread 1 then acquires and hits. -/

/-- The single point fetched in the demonstration run. -/
def demoPts : List Point := [(1, 1, 20)]

/-- Demo: both threads at `start`, empty store. -/
def demo0 : SFState 2 := initState 2 ⟨[], []⟩

/-- Demo: thread 0 acquired the lock. -/
def demo1 : SFState 2 :=
  { demo0 with pc := Function.update demo0.pc 0 .locked, lock := some 0 }

/-- Demo: thread 0 observed the miss and started its fetch. -/
def demo2 : SFState 2 :=
  { demo1 with pc := Function.update demo1.pc 0 .fetching, calls := demo1.calls + 1 }

/-- Demo: thread 0 stored the fetched points and released the lock. -/
def demo3 : SFState 2 :=
  { demo2 with pc := Function.update demo2.pc 0 (.done demoPts.length),
               lock := none, store := (store_tile 0 (0, 0) demoPts 0 demo2.store).2 }

/-- Demo: thread 1 acquired the lock. -/
def demo4 : SFState 2 :=
  { demo3 with pc := Function.update demo3.pc 1 .locked, lock := some 1 }

/-- Demo: thread 1 observed the cache hit and returned 0. -/
def demo5 : SFState 2 :=
  { demo4 with pc := Function.update demo4.pc 1 (.done 0), lock := none }

end SingleFlight

/-! ## Helper lemmas -/

/-- Both components of `tile_id_for` are twice the floor of the halved
coordinate (`tile_origin` with step `TILE_DEG = 2` produces the
integer-valued float `⌊v/2⌋·2`). -/
theorem tile_id_for_eq (lat lon : ℚ) :
    tile_id_for lat lon = (2 * ⌊lat / 2⌋, 2 * ⌊lon / 2⌋) := by
  unfold tile_id_for tile_origin TILE_DEG
  have h : ∀ v : ℚ, ⌊(⌊v / 2⌋ : ℚ) * 2⌋ = 2 * ⌊v / 2⌋ := by
    intro v
    rw [show ((⌊v / 2⌋ : ℚ) * 2) = ((2 * ⌊v / 2⌋ : ℤ) : ℚ) by push_cast; ring,
      Int.floor_intCast]
  rw [h lat, h lon]

/-- After `store_tile d t`, the `sst_tile` row for `(d, t)` is present. -/
theorem tile_exists_store_tile (d : Date) (t : TileId) (pts : List Point)
    (now : ℕ) (s : Store) :
    tile_exists d t (store_tile d t pts now s).2 = true := by
  unfold store_tile tile_exists
  simp

/-- `store_tile` returns the number of points handed to it (the source's
`n += 1` per loop iteration, `INSERT OR REPLACE` notwithstanding). -/
theorem store_tile_count (d : Date) (t : TileId) (pts : List Point)
    (now : ℕ) (s : Store) :
    (store_tile d t pts now s).1 = pts.length := by
  unfold store_tile
  have key : ∀ (l : List Point) (g : List GridRow) (n : ℕ),
      (l.foldl (fun (acc : List GridRow × ℕ) p =>
        (insert_grid_row { date := d, tileId := t, lat := p.1, lon := p.2.1, temp := p.2.2 } acc.1,
         acc.2 + 1)) (g, n)).2 = n + l.length := by
    intro l
    induction l with
    | nil => intro g n; simp
    | cons p ps ih =>
      intro g n
      simp only [List.foldl_cons, List.length_cons]
      rw [ih]
      omega
  simp [key]

/-! ## C8: tile-id round trip -/

/-- C8.  With `TILE_DEG = 2.0`: for every `lat` and `lon`, the bbox of
`tile_id_for lat lon` contains `(lat, lon)` half-openly
(`min ≤ coord < max` on both axes), and re-deriving the tile id from the
bbox's `min_lat`/`min_lon` corner gives the same id back. -/
theorem tile_round_trip (lat lon : ℚ) :
    (tile_bbox (tile_id_for lat lon)).min_lat ≤ lat ∧
    lat < (tile_bbox (tile_id_for lat lon)).max_lat ∧
    (tile_bbox (tile_id_for lat lon)).min_lon ≤ lon ∧
    lon < (tile_bbox (tile_id_for lat lon)).max_lon ∧
    tile_id_for (tile_bbox (tile_id_for lat lon)).min_lat
      (tile_bbox (tile_id_for lat lon)).min_lon = tile_id_for lat lon := by
  have hle : ∀ v : ℚ, ((2 * ⌊v / 2⌋ : ℤ) : ℚ) ≤ v := by
    intro v
    have := Int.floor_le (v / 2)
    push_cast
    linarith
  have hlt : ∀ v : ℚ, v < ((2 * ⌊v / 2⌋ : ℤ) : ℚ) + TILE_DEG := by
    intro v
    have := Int.lt_floor_add_one (v / 2)
    unfold TILE_DEG
    push_cast
    linarith
  have hid : ∀ v : ℚ, ⌊((2 * ⌊v / 2⌋ : ℤ) : ℚ) / 2⌋ = ⌊v / 2⌋ := by
    intro v
    rw [show (((2 * ⌊v / 2⌋ : ℤ) : ℚ) / 2) = ((⌊v / 2⌋ : ℤ) : ℚ) by push_cast; ring,
      Int.floor_intCast]
  refine ⟨?_, ?_, ?_, ?_, ?_⟩
  · rw [tile_id_for_eq]; exact hle lat
  · rw [tile_id_for_eq]; exact hlt lat
  · rw [tile_id_for_eq]; exact hle lon
  · rw [tile_id_for_eq]; exact hlt lon
  · rw [tile_id_for_eq, tile_id_for_eq]
    simp only [tile_bbox]
    rw [hid lat, hid lon]

/-! ## C2: idempotence of `ensure_tile` per key -/

/-- C2.  (i) A cache hit returns 0, leaves the store untouched and invokes
the adapter zero times.  (ii) After any successful call the `sst_tile` row
for the key exists and every subsequent call is a pure hit: 0, unchanged
store, no adapter invocation.  (iii) On a miss whose first fetch succeeds
with a non-empty point list, the first call returns the positive point
count with exactly one adapter invocation and the second call returns 0
with none. -/
theorem ensure_tile_idempotent :
    (∀ (A : Adapter) (now : ℕ) (d : Date) (t : TileId) (s : Store),
      tile_exists d t s = true →
      ensure_tile A now d t s = (.ok 0, s, [])) ∧
    (∀ (A : Adapter) (now : ℕ) (d : Date) (t : TileId) (s : Store)
      (n : ℕ) (s' : Store) (tr : Trace),
      ensure_tile A now d t s = (.ok n, s', tr) →
      tile_exists d t s' = true ∧ ensure_tile A now d t s' = (.ok 0, s', [])) ∧
    (∀ (A : Adapter) (now : ℕ) (d : Date) (t : TileId) (s : Store) (pts : List Point),
      tile_exists d t s = false → A d t = .ok pts → pts ≠ [] →
      ensure_tile A now d t s =
        (.ok pts.length, (store_tile d t pts now s).2, [(d, t)]) ∧
      0 < pts.length ∧
      ensure_tile A now d t (store_tile d t pts now s).2 =
        (.ok 0, (store_tile d t pts now s).2, [])) := by
  have hit : ∀ (A : Adapter) (now : ℕ) (d : Date) (t : TileId) (s : Store),
      tile_exists d t s = true → ensure_tile A now d t s = (.ok 0, s, []) := by
    intro A now d t s h
    unfold ensure_tile
    rw [h]
    simp
  refine ⟨hit, ?_, ?_⟩
  · intro A now d t s n s' tr h
    unfold ensure_tile at h
    by_cases he : tile_exists d t s
    · rw [he] at h
      simp only [if_true, Prod.mk.injEq] at h
      obtain ⟨-, h2, -⟩ := h
      subst h2
      exact ⟨he, hit A now d t _ he⟩
    · rw [Bool.not_eq_true] at he
      rw [he] at h
      simp only [Bool.false_eq_true, if_false] at h
      rcases hop : open_sst_dataset A t d with ⟨res, tr0⟩
      rw [hop] at h
      cases res with
      | error e => simp at h
      | ok pts =>
        simp only [Prod.mk.injEq] at h
        obtain ⟨-, h2, -⟩ := h
        subst h2
        have hex := tile_exists_store_tile d t pts now s
        exact ⟨hex, hit A now d t _ hex⟩
  · intro A now d t s pts hmiss hA hne
    have hrun : ensure_tile A now d t s =
        (.ok pts.length, (store_tile d t pts now s).2, [(d, t)]) := by
      unfold ensure_tile open_sst_dataset
      rw [hmiss, hA]
      simp [store_tile_count]
    refine ⟨hrun, List.length_pos.mpr hne, ?_⟩
    exact hit A now d t _ (tile_exists_store_tile d t pts now s)

/-- Witness for C2: a concrete miss-then-hit run.  The adapter returns one
point; the first call fetches and stores it (count 1 > 0, one adapter
invocation), the second call is a pure hit. -/
theorem ensure_tile_idempotent_witness :
    ensure_tile (fun _ _ => .ok [((1 : ℚ), (1 : ℚ), (20 : ℚ))]) 0 0 (0, 0) ⟨[], []⟩ =
      (.ok [((1 : ℚ), (1 : ℚ), (20 : ℚ))].length,
       (store_tile 0 (0, 0) [((1 : ℚ), (1 : ℚ), (20 : ℚ))] 0 ⟨[], []⟩).2, [(0, (0, 0))]) ∧
    0 < [((1 : ℚ), (1 : ℚ), (20 : ℚ))].length ∧
    ensure_tile (fun _ _ => .ok [((1 : ℚ), (1 : ℚ), (20 : ℚ))]) 0 0 (0, 0)
        (store_tile 0 (0, 0) [((1 : ℚ), (1 : ℚ), (20 : ℚ))] 0 ⟨[], []⟩).2 =
      (.ok 0, (store_tile 0 (0, 0) [((1 : ℚ), (1 : ℚ), (20 : ℚ))] 0 ⟨[], []⟩).2, []) :=
  ensure_tile_idempotent.2.2 (fun _ _ => .ok [((1 : ℚ), (1 : ℚ), (20 : ℚ))])
    0 0 (0, 0) ⟨[], []⟩ [((1 : ℚ), (1 : ℚ), (20 : ℚ))] rfl rfl (by simp)

/-! ## C3: one-day fallback, then failure leaves the key absent -/

/-- C3.  If the fetch for `(d, t)` fails and the retry at the previous day
`d - 1` also fails, `ensure_tile` propagates the second failure, the store
is exactly as before (no `sst_tile` row, no `sst_grid` rows written), and
the trace shows exactly one retry, at `d - 1`. -/
theorem ensure_tile_fallback_failure
    (A : Adapter) (now : ℕ) (d : Date) (t : TileId) (s : Store) (e1 e2 : PyExn)
    (hmiss : tile_exists d t s = false)
    (h1 : A d t = .error e1) (h2 : A (d - 1) t = .error e2) :
    ensure_tile A now d t s = (.error e2, s, [(d, t), (d - 1, t)]) := by
  unfold ensure_tile open_sst_dataset
  rw [hmiss, h1, h2]
  simp

/-- Witness for C3: both days fail concretely; the second failure comes
back, the store is still empty, the trace shows the two attempts. -/
theorem ensure_tile_fallback_failure_witness :
    ensure_tile (fun _ _ => .error PyExn.dataUnavailable) 0 0 (0, 0) ⟨[], []⟩ =
      (.error PyExn.dataUnavailable, ⟨[], []⟩, [(0, (0, 0)), (0 - 1, (0, 0))]) :=
  ensure_tile_fallback_failure (fun _ _ => .error PyExn.dataUnavailable)
    0 0 (0, 0) ⟨[], []⟩ PyExn.dataUnavailable PyExn.dataUnavailable rfl rfl rfl

/-! ## C10: error kinds across the fallback (corrected) -/

/-- Counterexample to C10 as stated.  The source's `_open_sst_dataset`
catches every exception (`except Exception`), so the one-day fallback is
applied to an infrastructure fault too, not only to `DataUnavailable`; and
when the fallback then succeeds, the infrastructure fault of the requested
date is swallowed entirely: here the adapter raises an infrastructure fault
for day 5, yet `ensure_tile` retries day 4 and returns success. -/
theorem fallback_masks_infra_cex :
    (fun d (_ : TileId) => if d = (5 : Date) then Except.error (PyExn.infra 7)
      else Except.ok [((1 : ℚ), (1 : ℚ), (20 : ℚ))]) 5 (0, 0) =
        .error (PyExn.infra 7) ∧
    ensure_tile (fun d _ => if d = (5 : Date) then .error (PyExn.infra 7)
        else .ok [((1 : ℚ), (1 : ℚ), (20 : ℚ))]) 0 5 (0, 0) ⟨[], []⟩ =
      (.ok 1, ⟨[⟨5, (0, 0), 0⟩], [⟨5, (0, 0), 1, 1, 20⟩]⟩, [(5, (0, 0)), (4, (0, 0))]) :=
  ⟨rfl, rfl⟩

/-- C10 amended: the fallback is applied to a first-attempt failure of any
kind (so a fallback success masks even an infrastructure fault), and only
when both attempts fail does the failure reach the caller — the second
attempt's exception, with its kind preserved, so an infrastructure fault is
still distinguishable from `DataUnavailable` at the caller. -/
theorem fetch_error_kind_behavior :
    (∀ (A : Adapter) (now : ℕ) (d : Date) (t : TileId) (s : Store)
      (e1 : PyExn) (pts : List Point),
      tile_exists d t s = false → A d t = .error e1 → A (d - 1) t = .ok pts →
      ensure_tile A now d t s =
        (.ok pts.length, (store_tile d t pts now s).2, [(d, t), (d - 1, t)])) ∧
    (∀ (A : Adapter) (now : ℕ) (d : Date) (t : TileId) (s : Store)
      (e1 : PyExn) (k : ℕ),
      tile_exists d t s = false → A d t = .error e1 → A (d - 1) t = .error (.infra k) →
      ensure_tile A now d t s = (.error (.infra k), s, [(d, t), (d - 1, t)])) := by
  constructor
  · intro A now d t s e1 pts hmiss h1 h2
    unfold ensure_tile open_sst_dataset
    rw [hmiss, h1, h2]
    simp [store_tile_count]
  · intro A now d t s e1 k hmiss h1 h2
    exact ensure_tile_fallback_failure A now d t s e1 (.infra k) hmiss h1 h2

/-- Witness for the amended C10: an infrastructure fault on the requested
day followed by a fallback success, and an infrastructure fault on both
days propagating with its kind intact. -/
theorem fetch_error_kind_behavior_witness :
    ensure_tile (fun d _ => if d = (5 : Date) then .error (PyExn.infra 7)
        else .ok [((1 : ℚ), (1 : ℚ), (20 : ℚ))]) 0 5 (0, 0) ⟨[], []⟩ =
      (.ok [((1 : ℚ), (1 : ℚ), (20 : ℚ))].length,
       (store_tile 5 (0, 0) [((1 : ℚ), (1 : ℚ), (20 : ℚ))] 0 ⟨[], []⟩).2,
       [(5, (0, 0)), (5 - 1, (0, 0))]) ∧
    ensure_tile (fun _ _ => .error (PyExn.infra 9)) 0 0 (0, 0) ⟨[], []⟩ =
      (.error (PyExn.infra 9), ⟨[], []⟩, [(0, (0, 0)), (0 - 1, (0, 0))]) :=
  ⟨fetch_error_kind_behavior.1 _ 0 5 (0, 0) ⟨[], []⟩ (PyExn.infra 7)
      [((1 : ℚ), (1 : ℚ), (20 : ℚ))] rfl rfl rfl,
   fetch_error_kind_behavior.2 (fun _ _ => .error (PyExn.infra 9))
      0 0 (0, 0) ⟨[], []⟩ (PyExn.infra 9) 9 rfl rfl rfl⟩

/-! ## C4: grid rows only under an existing tile record -/

/-- The store invariant of §3 of the design: every `sst_grid` row has a
covering `sst_tile` row for its `(date, tile_id)` key. -/
def StoreInv (s : Store) : Prop :=
  ∀ r ∈ s.grid, ∃ tr ∈ s.tiles, tr.date = r.date ∧ tr.tileId = r.tileId

/-- Rows of the grid after `store_tile`'s insert loop either carry the key
being replaced or were already present before the loop. -/
theorem store_tile_fold_mem (d : Date) (t : TileId) (r : GridRow) :
    ∀ (pts : List Point) (g : List GridRow) (n : ℕ),
      r ∈ (pts.foldl (fun (acc : List GridRow × ℕ) p =>
        (insert_grid_row { date := d, tileId := t, lat := p.1, lon := p.2.1, temp := p.2.2 } acc.1,
         acc.2 + 1)) (g, n)).1 →
      (r.date = d ∧ r.tileId = t) ∨ r ∈ g := by
  intro pts
  induction pts with
  | nil => intro g n h; exact Or.inr h
  | cons p ps ih =>
    intro g n h
    simp only [List.foldl_cons] at h
    rcases ih _ _ h with hk | hmem
    · exact Or.inl hk
    · unfold insert_grid_row at hmem
      rcases List.mem_cons.mp hmem with hr | hr
      · subst hr; exact Or.inl ⟨rfl, rfl⟩
      · exact Or.inr (List.mem_filter.mp hr).1

/-- `store_tile` preserves the store invariant: the new grid rows carry the
upserted key, whose tile row is written in the same atomic unit, and
surviving old rows keep their old tile rows (their key differs from the
replaced one, so the tile-row filter does not remove them). -/
theorem store_tile_preserves_inv (d : Date) (t : TileId) (pts : List Point)
    (now : ℕ) (s : Store) (hs : StoreInv s) :
    StoreInv (store_tile d t pts now s).2 := by
  intro r hr
  unfold store_tile at hr ⊢
  simp only at hr ⊢
  rcases store_tile_fold_mem d t r pts _ _ hr with hk | hmem
  · exact ⟨{ date := d, tileId := t, fetchedAt := now }, List.mem_cons_self .., hk.1.symm, hk.2.symm⟩
  · have hold := List.mem_filter.mp hmem
    obtain ⟨tr, htr, h1, h2⟩ := hs r hold.1
    refine ⟨tr, List.mem_cons_of_mem _ (List.mem_filter.mpr ⟨htr, ?_⟩), h1, h2⟩
    have hnk : ¬(r.date = d ∧ r.tileId = t) := by
      have h3 := hold.2
      simp only [Bool.not_eq_true', decide_eq_false_iff_not] at h3
      exact h3
    simp only [Bool.not_eq_true', decide_eq_false_iff_not]
    intro hc
    exact hnk ⟨h1 ▸ hc.1, h2 ▸ hc.2⟩

/-- `ensure_tile` preserves the store invariant on every path (hit, fetch
success via `store_tile`, fetch failure leaving the store untouched). -/
theorem ensure_tile_preserves_inv (A : Adapter) (now : ℕ) (d : Date)
    (t : TileId) (s : Store) (hs : StoreInv s) :
    StoreInv (ensure_tile A now d t s).2.1 := by
  unfold ensure_tile
  by_cases he : tile_exists d t s
  · rw [he]; simpa using hs
  · rw [Bool.not_eq_true] at he
    rw [he]
    simp only [Bool.false_eq_true, if_false]
    rcases hop : open_sst_dataset A t d with ⟨res, tr0⟩
    cases res with
    | error e => simpa using hs
    | ok pts => simpa using store_tile_preserves_inv d t pts now s hs

/-- The sweep of `ensure_tile` calls in `get_grid` preserves the invariant. -/
theorem ensure_tiles_preserves_inv (A : Adapter) (now : ℕ) (d : Date) :
    ∀ (ts : List TileId) (s : Store), StoreInv s →
      StoreInv (ensure_tiles A now d ts s).2.1 := by
  intro ts
  induction ts with
  | nil => intro s hs; simpa using hs
  | cons t ts ih =>
    intro s hs
    unfold ensure_tiles
    rcases h1 : ensure_tile A now d t s with ⟨res, s', tr⟩
    have hs' : StoreInv s' := by
      have := ensure_tile_preserves_inv A now d t s hs
      rw [h1] at this
      exact this
    cases res with
    | error e => simpa using hs'
    | ok u =>
      rcases h2 : ensure_tiles A now d ts s' with ⟨res2, s'', tr2⟩
      have := ih s' hs'
      rw [h2] at this
      simpa [h2] using this

/-- C4.  The invariant "grid rows only under an existing tile record" holds
of the empty store and is preserved by every operation of the core:
`store_tile` (the sole mutation path, whose delete + inserts + tile upsert
are one atomic unit in this model, exactly as the single-commit transaction
of the source), `ensure_tile`, the `get_grid` sweep, and
`point_temperature`; the pure readers do not touch the store at all. -/
theorem store_invariant_preserved :
    StoreInv ⟨[], []⟩ ∧
    (∀ (d : Date) (t : TileId) (pts : List Point) (now : ℕ) (s : Store),
      StoreInv s → StoreInv (store_tile d t pts now s).2) ∧
    (∀ (A : Adapter) (now : ℕ) (d : Date) (t : TileId) (s : Store),
      StoreInv s → StoreInv (ensure_tile A now d t s).2.1) ∧
    (∀ (A : Adapter) (now : ℕ) (today : Date) (south west north east : ℚ) (s : Store),
      StoreInv s → StoreInv (get_grid A now today south west north east s).2.1) ∧
    (∀ (g : Geo) (A : Adapter) (now : ℕ) (d : Date) (lat lon radius_km : ℚ) (s : Store),
      StoreInv s → StoreInv (point_temperature g A now d lat lon radius_km s).2.1) := by
  refine ⟨by intro r hr; simp at hr, store_tile_preserves_inv, ensure_tile_preserves_inv, ?_, ?_⟩
  · intro A now today south west north east s hs
    have hpre := ensure_tiles_preserves_inv A now today (sweep_tiles south west north east) s hs
    unfold get_grid
    rcases h : ensure_tiles A now today (sweep_tiles south west north east) s with ⟨res, s', tr⟩
    rw [h] at hpre
    cases res <;> simpa using hpre
  · intro g A now d lat lon radius_km s hs
    have hpre := ensure_tile_preserves_inv A now d (tile_id_for lat (wrap_lon_180 lon)) s hs
    unfold point_temperature
    dsimp only
    rcases h : ensure_tile A now d (tile_id_for lat (wrap_lon_180 lon)) s with ⟨res, s', tr⟩
    rw [h] at hpre
    cases res with
    | error e => simpa using hpre
    | ok fetched =>
      simp only
      split <;> simpa using hpre

/-- Witness for C4: the invariant of the empty store, and its preservation
through a concrete `store_tile` and a concrete fetching `ensure_tile`. -/
theorem store_invariant_preserved_witness :
    StoreInv (store_tile 0 (0, 0) [((1 : ℚ), (1 : ℚ), (20 : ℚ))] 0 ⟨[], []⟩).2 ∧
    StoreInv (ensure_tile (fun _ _ => .ok [((1 : ℚ), (1 : ℚ), (20 : ℚ))])
      0 0 (0, 0) ⟨[], []⟩).2.1 :=
  ⟨store_invariant_preserved.2.1 0 (0, 0) [((1 : ℚ), (1 : ℚ), (20 : ℚ))] 0 ⟨[], []⟩
      store_invariant_preserved.1,
   store_invariant_preserved.2.2.1 (fun _ _ => .ok [((1 : ℚ), (1 : ℚ), (20 : ℚ))])
      0 0 (0, 0) ⟨[], []⟩ store_invariant_preserved.1⟩

/-! ## C6: seam-aware bbox query -/

/-- The specification's reading of the longitude condition: a plain interval
when `min_lon ≤ max_lon`, otherwise the union `[min_lon, 180] ∪ [-180, max_lon]`. -/
def lon_in_bbox (bb : Bbox) (lon : ℚ) : Prop :=
  if bb.min_lon ≤ bb.max_lon then bb.min_lon ≤ lon ∧ lon ≤ bb.max_lon
  else (bb.min_lon ≤ lon ∧ lon ≤ 180) ∨ (-180 ≤ lon ∧ lon ≤ bb.max_lon)

instance (bb : Bbox) (lon : ℚ) : Decidable (lon_in_bbox bb lon) := by
  unfold lon_in_bbox
  infer_instance

/-- The specification's candidate predicate for a grid row against a date
and a bbox: date match, latitude in the closed band, longitude per
`lon_in_bbox`. -/
def bbox_pred (d : Date) (bb : Bbox) (r : GridRow) : Prop :=
  r.date = d ∧ bb.min_lat ≤ r.lat ∧ r.lat ≤ bb.max_lat ∧ lon_in_bbox bb r.lon

instance (d : Date) (bb : Bbox) (r : GridRow) : Decidable (bbox_pred d bb r) := by
  unfold bbox_pred
  infer_instance

/-- The stored rows a bbox query selects, in store order. -/
def candidate_rows (d : Date) (bb : Bbox) (s : Store) : List GridRow :=
  s.grid.filter fun r => decide (bbox_pred d bb r)

/-- The two SQL branches of `query_points_in_bbox` compute exactly the
spec-side candidate filter, projected to `(lat, lon, temp_c)`. -/
theorem query_eq_candidate (d : Date) (bb : Bbox) (s : Store) :
    query_points_in_bbox d bb s =
      (candidate_rows d bb s).map fun r => (r.lat, r.lon, r.temp) := by
  unfold query_points_in_bbox candidate_rows
  by_cases h : bb.min_lon ≤ bb.max_lon
  · rw [if_pos h]
    have hf : (fun r : GridRow => decide (r.date = d ∧
        (bb.min_lat ≤ r.lat ∧ r.lat ≤ bb.max_lat) ∧
        (bb.min_lon ≤ r.lon ∧ r.lon ≤ bb.max_lon))) =
        fun r : GridRow => decide (bbox_pred d bb r) := by
      funext r
      simp only [decide_eq_decide]
      unfold bbox_pred lon_in_bbox
      rw [if_pos h]
      tauto
    rw [hf]
  · rw [if_neg h]
    have hf : (fun r : GridRow => decide (r.date = d ∧
        (bb.min_lat ≤ r.lat ∧ r.lat ≤ bb.max_lat) ∧
        ((bb.min_lon ≤ r.lon ∧ r.lon ≤ 180) ∨ (-180 ≤ r.lon ∧ r.lon ≤ bb.max_lon)))) =
        fun r : GridRow => decide (bbox_pred d bb r) := by
      funext r
      simp only [decide_eq_decide]
      unfold bbox_pred lon_in_bbox
      rw [if_neg h]
      tauto
    rw [hf]

/-- C6.  A bbox query returns exactly the stored rows of that date whose
latitude lies in `[min_lat, max_lat]` and whose longitude lies in
`[min_lon, max_lon]` when `min_lon ≤ max_lon` and in the seam union
`[min_lon, 180] ∪ [-180, max_lon]` otherwise; in particular, the bbox
`min_lon = 179, max_lon = -179` matches stored points at longitudes
`179.5` and `-179.5` but not at `0`. -/
theorem query_bbox_seam :
    (∀ (d : Date) (bb : Bbox) (s : Store),
      query_points_in_bbox d bb s =
        (s.grid.filter fun r => decide (bbox_pred d bb r)).map
          fun r => (r.lat, r.lon, r.temp)) ∧
    query_points_in_bbox 0
        { min_lat := -90, max_lat := 90, min_lon := 179, max_lon := -179 }
        ⟨[⟨0, (0, 88), 0⟩],
         [⟨0, (0, 178), 5, mkRat 359 2, 10⟩, ⟨0, (0, -180), 5, mkRat (-359) 2, 11⟩,
          ⟨0, (0, 0), 5, 0, 12⟩]⟩ =
      [(5, mkRat 359 2, 10), (5, mkRat (-359) 2, 11)] :=
  ⟨fun d bb s => query_eq_candidate d bb s, by decide⟩

/-! ## C7: `queryArea` is a pure passive read -/

/-- C7.  The area endpoint (`api_area` over `query_points_in_bbox`) returns
the store exactly as it received it and an empty adapter trace — it never
invokes the Data Source Adapter and never mutates the store, on the
validation-failure branch as well as on the success branch — and on a store
with no grid rows every bbox query (seam-crossing or not) returns the empty
list, so the endpoint returns zero points. -/
theorem query_area_passive :
    (∀ (today : Date) (min_lat max_lat min_lon max_lon : ℚ) (s : Store),
      (api_area today min_lat max_lat min_lon max_lon s).2.1 = s ∧
      (api_area today min_lat max_lat min_lon max_lon s).2.2 = []) ∧
    (∀ (d : Date) (bb : Bbox) (s : Store), s.grid = [] →
      query_points_in_bbox d bb s = []) ∧
    (∀ (today : Date) (min_lat max_lat min_lon max_lon : ℚ) (s : Store)
      (pts : List Point), s.grid = [] →
      (api_area today min_lat max_lat min_lon max_lon s).1 = .ok (today, pts) →
      pts = []) := by
  have hq : ∀ (d : Date) (bb : Bbox) (s : Store), s.grid = [] →
      query_points_in_bbox d bb s = [] := by
    intro d bb s h
    unfold query_points_in_bbox
    rw [h]
    split <;> simp
  refine ⟨?_, hq, ?_⟩
  · intro today min_lat max_lat min_lon max_lon s
    unfold api_area
    split <;> simp
  · intro today min_lat max_lat min_lon max_lon s pts hgrid h
    unfold api_area at h
    split at h
    · simp at h
    · simp only [Except.ok.injEq, Prod.mk.injEq] at h
      rw [← h.2, hq _ _ _ hgrid]

/-- Witness for C7: an empty store, a seam-crossing bbox — unchanged store,
empty trace, no points. -/
theorem query_area_passive_witness :
    query_points_in_bbox 3 { min_lat := 0, max_lat := 1, min_lon := 179, max_lon := -179 }
      ⟨[], []⟩ = [] ∧
    (api_area 3 0 1 179 (-179) ⟨[], []⟩).2.1 = (⟨[], []⟩ : Store) ∧
    (api_area 3 0 1 179 (-179) ⟨[], []⟩).2.2 = [] :=
  ⟨query_area_passive.2.1 3 _ ⟨[], []⟩ rfl,
   (query_area_passive.1 3 0 1 179 (-179) ⟨[], []⟩).1,
   (query_area_passive.1 3 0 1 179 (-179) ⟨[], []⟩).2⟩

/-! ## C5: `point_temperature` postcondition -/

/-- The temperatures of the stored candidates inside the (seam-aware) bbox
that survive the exact-distance filter — the specification's description of
what `point_temperature` aggregates. -/
def surviving_temps (g : Geo) (lat lon radius_km : ℚ) (d : Date) (bb : Bbox)
    (s : Store) : List ℚ :=
  ((candidate_rows d bb s).filter fun r =>
    decide (g.haversine_km lat lon r.lat r.lon ≤ radius_km)).map fun r => r.temp

/-- C5.  Whenever `ensure_tile` for the tile of `(lat, wrap_lon_180 lon)`
succeeds (hit or fetch), `point_temperature` returns, on the post-ensure
store: a structured `unavailable` result (no mean/min/max/cells fields, no
exception) when no candidate in the wrapped radius bbox survives the
haversine filter, and otherwise an `ok` result whose `mean_c`, `min_c`,
`max_c` are `round2` of the mean, minimum and maximum of the surviving
temperatures and whose `cells_used` is their number; both carry the wrapped
longitude, the tile id and the fetch count. -/
theorem point_temperature_postcondition
    (g : Geo) (A : Adapter) (now : ℕ) (d : Date) (lat lon radius_km : ℚ)
    (s : Store) (fetched : ℕ) (s' : Store) (tr : Trace)
    (hens : ensure_tile A now d (tile_id_for lat (wrap_lon_180 lon)) s =
      (.ok fetched, s', tr)) :
    (surviving_temps g lat (wrap_lon_180 lon) radius_km d
        (let bb0 := g.bbox_for_radius_km lat (wrap_lon_180 lon) radius_km
         { bb0 with min_lon := wrap_lon_180 bb0.min_lon,
                    max_lon := wrap_lon_180 bb0.max_lon }) s' = [] →
      point_temperature g A now d lat lon radius_km s =
        (.ok (.unavailable d lat (wrap_lon_180 lon) radius_km
          (tile_id_for lat (wrap_lon_180 lon)) fetched), s', tr)) ∧
    (∀ (t0 : ℚ) (ts : List ℚ),
      surviving_temps g lat (wrap_lon_180 lon) radius_km d
        (let bb0 := g.bbox_for_radius_km lat (wrap_lon_180 lon) radius_km
         { bb0 with min_lon := wrap_lon_180 bb0.min_lon,
                    max_lon := wrap_lon_180 bb0.max_lon }) s' = t0 :: ts →
      point_temperature g A now d lat lon radius_km s =
        (.ok (.ok d lat (wrap_lon_180 lon) radius_km
          (round2 ((t0 :: ts).sum / ((t0 :: ts).length : ℚ)))
          (round2 (ts.foldl min t0))
          (round2 (ts.foldl max t0))
          (t0 :: ts).length
          (tile_id_for lat (wrap_lon_180 lon)) fetched), s', tr)) := by
  have hbody : point_temperature g A now d lat lon radius_km s =
      (match surviving_temps g lat (wrap_lon_180 lon) radius_km d
          (let bb0 := g.bbox_for_radius_km lat (wrap_lon_180 lon) radius_km
           { bb0 with min_lon := wrap_lon_180 bb0.min_lon,
                      max_lon := wrap_lon_180 bb0.max_lon }) s' with
        | [] => (.ok (.unavailable d lat (wrap_lon_180 lon) radius_km
            (tile_id_for lat (wrap_lon_180 lon)) fetched), s', tr)
        | t0 :: rest => (.ok (.ok d lat (wrap_lon_180 lon) radius_km
            (round2 ((t0 :: rest).sum / ((t0 :: rest).length : ℚ)))
            (round2 (rest.foldl min t0))
            (round2 (rest.foldl max t0))
            (t0 :: rest).length
            (tile_id_for lat (wrap_lon_180 lon)) fetched), s', tr)) := by
    unfold point_temperature
    dsimp only
    rw [hens]
    dsimp only
    rw [query_eq_candidate, List.filter_map, List.map_map]
    rfl
  rw [hbody]
  constructor
  · intro hsurv
    rw [hsurv]
  · intro t0 ts hsurv
    rw [hsurv]

/-- Witness for C5: the end-to-end scenario.  The store holds the tile
record for tile `(0,0)` (bbox `[0,2) × [0,2)`) and the two points
`(1.0, 1.0, 20.0)` and `(1.5, 1.5, 21.0)` for date 7; the `Geo` instance
stands in for `geo.py` with a flat-projection distance and the `r/111`
box.  `point_temperature(7, 1.2, 1.2, 50)` returns status ok,
`cells_used = 2`, `mean_c = 20.5` (= 41/2), `min_c = 20`, `max_c = 21`,
with no fetch performed. -/
theorem point_temperature_postcondition_witness :
    point_temperature
      ⟨fun la lo la2 lo2 => (la - la2) * (la - la2) + (lo - lo2) * (lo - lo2),
       fun la lo r => ⟨la - r / 111, la + r / 111, lo - r / 111, lo + r / 111⟩⟩
      (fun _ _ => .error PyExn.dataUnavailable) 0 7 (6/5) (6/5) 50
      ⟨[⟨7, (0, 0), 0⟩], [⟨7, (0, 0), 1, 1, 20⟩, ⟨7, (0, 0), 3/2, 3/2, 21⟩]⟩ =
      (.ok (.ok 7 (6/5) (6/5) 50 (41/2) 20 21 2 (0, 0) 0),
       ⟨[⟨7, (0, 0), 0⟩], [⟨7, (0, 0), 1, 1, 20⟩, ⟨7, (0, 0), 3/2, 3/2, 21⟩]⟩, []) := by
  have hw : wrap_lon_180 (6/5 : ℚ) = 6/5 := by
    have : (⌊(6/5 + 180 : ℚ) / 360⌋ : ℤ) = 0 := by norm_num
    unfold wrap_lon_180 qmod
    rw [this]
    norm_num
  have ht : tile_id_for (6/5 : ℚ) (6/5 : ℚ) = (0, 0) := by
    have : (⌊(6/5 : ℚ) / 2⌋ : ℤ) = 0 := by norm_num
    unfold tile_id_for tile_origin TILE_DEG
    rw [this]
    norm_num
  have hens : ensure_tile (fun _ _ => .error PyExn.dataUnavailable) 0 7
      (tile_id_for (6/5) (wrap_lon_180 (6/5)))
      ⟨[⟨7, (0, 0), 0⟩], [⟨7, (0, 0), 1, 1, 20⟩, ⟨7, (0, 0), 3/2, 3/2, 21⟩]⟩ =
      (.ok 0, ⟨[⟨7, (0, 0), 0⟩], [⟨7, (0, 0), 1, 1, 20⟩, ⟨7, (0, 0), 3/2, 3/2, 21⟩]⟩, []) := by
    rw [hw, ht]
    simp [ensure_tile, tile_exists]
  have h := point_temperature_postcondition
      ⟨fun la lo la2 lo2 => (la - la2) * (la - la2) + (lo - lo2) * (lo - lo2),
       fun la lo r => ⟨la - r / 111, la + r / 111, lo - r / 111, lo + r / 111⟩⟩
      (fun _ _ => .error PyExn.dataUnavailable) 0 7 (6/5) (6/5) 50
      ⟨[⟨7, (0, 0), 0⟩], [⟨7, (0, 0), 1, 1, 20⟩, ⟨7, (0, 0), 3/2, 3/2, 21⟩]⟩ 0
      ⟨[⟨7, (0, 0), 0⟩], [⟨7, (0, 0), 1, 1, 20⟩, ⟨7, (0, 0), 3/2, 3/2, 21⟩]⟩ [] hens
  have hwlo : wrap_lon_180 (6/5 - 50 / 111 : ℚ) = 6/5 - 50 / 111 := by
    have : (⌊(6/5 - 50 / 111 + 180 : ℚ) / 360⌋ : ℤ) = 0 := by norm_num
    unfold wrap_lon_180 qmod
    rw [this]
    norm_num
  have hwhi : wrap_lon_180 (6/5 + 50 / 111 : ℚ) = 6/5 + 50 / 111 := by
    have : (⌊(6/5 + 50 / 111 + 180 : ℚ) / 360⌋ : ℤ) = 0 := by norm_num
    unfold wrap_lon_180 qmod
    rw [this]
    norm_num
  have hsurv : surviving_temps
      ⟨fun la lo la2 lo2 => (la - la2) * (la - la2) + (lo - lo2) * (lo - lo2),
       fun la lo r => ⟨la - r / 111, la + r / 111, lo - r / 111, lo + r / 111⟩⟩
      (6/5) (wrap_lon_180 (6/5)) 50 7
      (let bb0 := Geo.bbox_for_radius_km
        ⟨fun la lo la2 lo2 => (la - la2) * (la - la2) + (lo - lo2) * (lo - lo2),
         fun la lo r => ⟨la - r / 111, la + r / 111, lo - r / 111, lo + r / 111⟩⟩
        (6/5) (wrap_lon_180 (6/5)) 50
       { bb0 with min_lon := wrap_lon_180 bb0.min_lon,
                  max_lon := wrap_lon_180 bb0.max_lon })
      ⟨[⟨7, (0, 0), 0⟩], [⟨7, (0, 0), 1, 1, 20⟩, ⟨7, (0, 0), 3/2, 3/2, 21⟩]⟩ = [20, 21] := by
    rw [hw]
    dsimp only [Geo.bbox_for_radius_km]
    rw [hwlo, hwhi]
    unfold surviving_temps candidate_rows bbox_pred lon_in_bbox
    norm_num [List.filter]
  have h2 := h.2 20 [21] (by rw [hw] at hsurv ⊢; exact hsurv)
  rw [hw] at h2
  rw [h2]
  have hmean : round2 (((20 : ℚ) :: [21]).sum / (((20 : ℚ) :: [21]).length : ℚ)) = 41/2 := by
    have : (((20 : ℚ) :: [21]).sum / (((20 : ℚ) :: [21]).length : ℚ)) = 41/2 := by
      norm_num
    rw [this]
    have hfl : (⌊(41/2 * 100 : ℚ)⌋ : ℤ) = 2050 := by norm_num
    unfold round2 roundHalfEven
    rw [hfl]
    norm_num
  have hmin : round2 (List.foldl min (20 : ℚ) [21]) = 20 := by
    have : List.foldl min (20 : ℚ) [21] = 20 := by
      norm_num [List.foldl]
    rw [this]
    have hfl : (⌊(20 * 100 : ℚ)⌋ : ℤ) = 2000 := by norm_num
    unfold round2 roundHalfEven
    rw [hfl]
    norm_num
  have hmax : round2 (List.foldl max (20 : ℚ) [21]) = 21 := by
    have : List.foldl max (20 : ℚ) [21] = 21 := by
      norm_num [List.foldl]
    rw [this]
    have hfl : (⌊(21 * 100 : ℚ)⌋ : ℤ) = 2100 := by norm_num
    unfold round2 roundHalfEven
    rw [hfl]
    norm_num
  rw [hmean, hmin, hmax, ht]
  norm_num

/-! ## C9: the `get_grid` tiling sweep (corrected) -/

/-- `gridLoop` satisfies exactly the recurrence of the source loop
`x = lo; while x <= hi: emit x; x += 2.0` — this certifies the closed-form
definition against the source. -/
theorem gridLoop_unfold (lo hi : ℚ) :
    gridLoop lo hi = if lo ≤ hi then lo :: gridLoop (lo + 2) hi else [] := by
  unfold gridLoop gridSteps
  by_cases h : lo ≤ hi
  · rw [if_pos h, if_pos h, List.range_succ_eq_map]
    simp only [List.map_cons, List.map_map, Nat.cast_zero, mul_zero, add_zero]
    congr 1
    by_cases h2 : lo + 2 ≤ hi
    · rw [if_pos h2]
      have hfl : ⌊(hi - (lo + 2)) / 2⌋ = ⌊(hi - lo) / 2⌋ - 1 := by
        rw [show (hi - (lo + 2)) / 2 = (hi - lo) / 2 - (1 : ℤ) by push_cast; ring,
          Int.floor_sub_int]
      have h1le : (1 : ℤ) ≤ ⌊(hi - lo) / 2⌋ := by
        apply Int.le_floor.mpr
        push_cast
        linarith
      have hsteps : ⌊(hi - (lo + 2)) / 2⌋.toNat + 1 = ⌊(hi - lo) / 2⌋.toNat := by
        omega
      rw [hsteps]
      have hfun : ((fun i : ℕ => lo + 2 * (i : ℚ)) ∘ Nat.succ) =
          fun i : ℕ => lo + 2 + 2 * (i : ℚ) := by
        funext i
        simp only [Function.comp]
        push_cast
        ring
      rw [hfun]
    · rw [if_neg h2]
      have hfl : ⌊(hi - lo) / 2⌋ = 0 := by
        apply Int.floor_eq_zero_iff.mpr
        constructor
        · linarith
        · show (hi - lo) / 2 < 1
          linarith
      rw [hfl]
      simp
  · rw [if_neg h, if_neg h]
    simp
/-- Membership in the loop values: exactly the offsets `lo + 2i` that have
not yet passed `hi`. -/
theorem gridLoop_mem (y lo hi : ℚ) :
    y ∈ gridLoop lo hi ↔ ∃ i : ℕ, y = lo + 2 * i ∧ lo + 2 * i ≤ hi := by
  unfold gridLoop
  simp only [List.mem_map, List.mem_range]
  constructor
  · rintro ⟨i, hilt, rfl⟩
    refine ⟨i, rfl, ?_⟩
    unfold gridSteps at hilt
    by_cases h : lo ≤ hi
    · rw [if_pos h] at hilt
      have h0 : (0 : ℤ) ≤ ⌊(hi - lo) / 2⌋ := Int.floor_nonneg.mpr (by linarith)
      have hle : (i : ℤ) ≤ ⌊(hi - lo) / 2⌋ := by omega
      have := Int.le_floor.mp hle
      push_cast at this
      linarith
    · rw [if_neg h] at hilt
      omega
  · rintro ⟨i, rfl, hle⟩
    refine ⟨i, ?_, rfl⟩
    unfold gridSteps
    have h2i : (0 : ℚ) ≤ 2 * i := by positivity
    have h : lo ≤ hi := by linarith
    rw [if_pos h]
    have : (i : ℤ) ≤ ⌊(hi - lo) / 2⌋ := by
      apply Int.le_floor.mpr
      push_cast
      linarith
    omega

/-- Counterexample to C9 as stated.  The sweep samples tile origins at
stride 2 starting from the bbox corner, so a tile that intersects the
requested bbox only at its top/right boundary is never ensured: for the
bbox `south=1, west=1, north=2, east=1`, the point `(2, 1)` lies in the
bbox (which the store query treats as the closed region `[1,2] × [1,1]`)
and in the tile `(2,0)` (bbox `[2,4) × [0,2)`), yet the sweep ensures only
tile `(0,0)` — `ensure_tile` is never called for `(2,0)` although its
bounding box intersects the requested bbox. -/
theorem grid_sweep_miss_cex :
    sweep_tiles 1 1 2 1 = [(0, 0)] ∧
    tile_id_for 2 1 = (2, 0) ∧
    (tile_bbox (2, 0)).min_lat ≤ 2 ∧ (2 : ℚ) < (tile_bbox (2, 0)).max_lat ∧
    (tile_bbox (2, 0)).min_lon ≤ 1 ∧ (1 : ℚ) < (tile_bbox (2, 0)).max_lon ∧
    ((1 : ℚ) ≤ 2 ∧ (2 : ℚ) ≤ 2 ∧ (1 : ℚ) ≤ 1) ∧
    (2, 0) ∉ sweep_tiles 1 1 2 1 := by
  have hfl1 : (⌊(1 : ℚ) / 2⌋ : ℤ) = 0 := by norm_num
  have hfl0 : (⌊(0 : ℚ) / 2⌋ : ℤ) = 0 := by norm_num
  have ht11 : tile_id_for 1 1 = (0, 0) := by
    unfold tile_id_for tile_origin TILE_DEG
    rw [hfl1]
    norm_num
  have hg12 : gridLoop 1 2 = [1] := by
    unfold gridLoop gridSteps
    have hsteps : (if (1 : ℚ) ≤ 2 then (⌊((2 : ℚ) - 1) / 2⌋).toNat + 1 else 0) = 1 := by
      norm_num
    rw [hsteps, show List.range 1 = [0] from rfl]
    norm_num
  have hg11 : gridLoop 1 1 = [1] := by
    unfold gridLoop gridSteps
    have hsteps : (if (1 : ℚ) ≤ 1 then (⌊((1 : ℚ) - 1) / 2⌋).toNat + 1 else 0) = 1 := by
      norm_num
    rw [hsteps, show List.range 1 = [0] from rfl]
    norm_num
  have hsw : sweep_tiles 1 1 2 1 = [(0, 0)] := by
    unfold sweep_tiles
    rw [hg12, hg11]
    simp [ht11]
  have ht21 : tile_id_for 2 1 = (2, 0) := by
    have h22 : (⌊(2 : ℚ) / 2⌋ : ℤ) = 1 := by norm_num
    unfold tile_id_for tile_origin TILE_DEG
    rw [h22, hfl1]
    norm_num
  refine ⟨hsw, ht21, ?_, ?_, ?_, ?_, ⟨by norm_num, by norm_num, le_refl 1⟩, ?_⟩
  · show ((2 : ℤ) : ℚ) ≤ 2
    norm_num
  · show (2 : ℚ) < ((2 : ℤ) : ℚ) + TILE_DEG
    unfold TILE_DEG
    norm_num
  · show ((0 : ℤ) : ℚ) ≤ 1
    norm_num
  · show (1 : ℚ) < ((0 : ℤ) : ℚ) + TILE_DEG
    unfold TILE_DEG
    norm_num
  · rw [hsw]
    decide

/-- C9 amended.  The sweep of `get_grid` calls `ensure_tile` exactly for
the tiles of the sampled origins `south + 2i ≤ north`, `west + 2j ≤ east`,
and then queries the store produced by the sweep.  These samples cover
every bbox point whose tile is not beyond the last sample's tile: for any
`(lat, lon)` in the bbox with `⌊lat/2⌋ ≤ ⌊south/2⌋ + ⌊(north-south)/2⌋`
and `⌊lon/2⌋ ≤ ⌊west/2⌋ + ⌊(east-west)/2⌋`, the containing tile is
ensured before the query.  (Tiles intersecting the bbox only above these
caps — a top/right boundary strip — can be missed, see the
counterexample.) -/
theorem grid_sweep_coverage
    (A : Adapter) (now : ℕ) (today : Date)
    (south west north east lat lon : ℚ) (s : Store)
    (h1 : south ≤ lat) (h2 : lat ≤ north) (h3 : west ≤ lon) (h4 : lon ≤ east)
    (h5 : ⌊lat / 2⌋ ≤ ⌊south / 2⌋ + ⌊(north - south) / 2⌋)
    (h6 : ⌊lon / 2⌋ ≤ ⌊west / 2⌋ + ⌊(east - west) / 2⌋)
    (u : Unit) (s' : Store) (tr : Trace)
    (hrun : ensure_tiles A now today (sweep_tiles south west north east) s =
      (.ok u, s', tr)) :
    tile_id_for lat lon ∈ sweep_tiles south west north east ∧
    get_grid A now today south west north east s =
      (.ok ((query_points_in_bbox today
          { min_lat := south, max_lat := north, min_lon := west, max_lon := east } s').map
        fun p => (p.1, p.2.1, round2 p.2.2)), s', tr) := by
  constructor
  · have hfs : ⌊south / 2⌋ ≤ ⌊lat / 2⌋ := Int.floor_le_floor (by linarith)
    have hfw : ⌊west / 2⌋ ≤ ⌊lon / 2⌋ := Int.floor_le_floor (by linarith)
    set i : ℕ := (⌊lat / 2⌋ - ⌊south / 2⌋).toNat with hidef
    set j : ℕ := (⌊lon / 2⌋ - ⌊west / 2⌋).toNat with hjdef
    have hiz : (i : ℤ) = ⌊lat / 2⌋ - ⌊south / 2⌋ := Int.toNat_of_nonneg (by omega)
    have hjz : (j : ℤ) = ⌊lon / 2⌋ - ⌊west / 2⌋ := Int.toNat_of_nonneg (by omega)
    have hsr : south + 2 * (i : ℚ) ≤ north := by
      have hstep : ((⌊(north - south) / 2⌋ : ℤ) : ℚ) ≤ (north - south) / 2 :=
        Int.floor_le _
      have hii : ((i : ℤ) : ℚ) ≤ ((⌊(north - south) / 2⌋ : ℤ) : ℚ) := by
        exact_mod_cast (by omega : (i : ℤ) ≤ ⌊(north - south) / 2⌋)
      push_cast at hii
      linarith
    have hsc : west + 2 * (j : ℚ) ≤ east := by
      have hstep : ((⌊(east - west) / 2⌋ : ℤ) : ℚ) ≤ (east - west) / 2 :=
        Int.floor_le _
      have hjj : ((j : ℤ) : ℚ) ≤ ((⌊(east - west) / 2⌋ : ℤ) : ℚ) := by
        exact_mod_cast (by omega : (j : ℤ) ≤ ⌊(east - west) / 2⌋)
      push_cast at hjj
      linarith
    have hfla : ⌊(south + 2 * (i : ℚ)) / 2⌋ = ⌊lat / 2⌋ := by
      rw [show (south + 2 * (i : ℚ)) / 2 = south / 2 + (i : ℤ) by push_cast; ring,
        Int.floor_add_int]
      omega
    have hflb : ⌊(west + 2 * (j : ℚ)) / 2⌋ = ⌊lon / 2⌋ := by
      rw [show (west + 2 * (j : ℚ)) / 2 = west / 2 + (j : ℤ) by push_cast; ring,
        Int.floor_add_int]
      omega
    have htile : tile_id_for (south + 2 * (i : ℚ)) (west + 2 * (j : ℚ)) =
        tile_id_for lat lon := by
      rw [tile_id_for_eq, tile_id_for_eq, hfla, hflb]
    have hla : (south + 2 * (i : ℚ)) ∈ gridLoop south north :=
      (gridLoop_mem _ _ _).mpr ⟨i, rfl, hsr⟩
    have hlo : (west + 2 * (j : ℚ)) ∈ gridLoop west east :=
      (gridLoop_mem _ _ _).mpr ⟨j, rfl, hsc⟩
    rw [← htile]
    unfold sweep_tiles
    exact List.mem_flatMap.mpr ⟨_, hla, List.mem_map.mpr ⟨_, hlo, rfl⟩⟩
  · unfold get_grid
    rw [hrun]

/-- Witness for the amended C9: with bbox `[0,3] × [0,3]` (all four sampled
tiles already cached, so the sweep is a pure sequence of hits), the point
`(2.5, 1)` satisfies the floor caps and its tile is among the swept
tiles. -/
theorem grid_sweep_coverage_witness :
    tile_id_for (5/2) 1 ∈ sweep_tiles 0 0 3 3 := by
  have htid00 : tile_id_for 0 0 = (0, 0) := by rw [tile_id_for_eq]; norm_num
  have htid02 : tile_id_for 0 2 = (0, 2) := by rw [tile_id_for_eq]; norm_num
  have htid20 : tile_id_for 2 0 = (2, 0) := by rw [tile_id_for_eq]; norm_num
  have htid22 : tile_id_for 2 2 = (2, 2) := by rw [tile_id_for_eq]; norm_num
  have hg03 : gridLoop 0 3 = [0, 2] := by
    unfold gridLoop gridSteps
    have hsteps : (if (0 : ℚ) ≤ 3 then (⌊((3 : ℚ) - 0) / 2⌋).toNat + 1 else 0) = 2 := by
      norm_num
    rw [hsteps, show List.range 2 = [0, 1] from rfl]
    norm_num
  have hsw : sweep_tiles 0 0 3 3 = [(0, 0), (0, 2), (2, 0), (2, 2)] := by
    unfold sweep_tiles
    rw [hg03]
    simp [htid00, htid02, htid20, htid22]
  have hrun : ensure_tiles (fun _ _ => .ok []) 0 7 (sweep_tiles 0 0 3 3)
      ⟨[⟨7, (0, 0), 0⟩, ⟨7, (0, 2), 0⟩, ⟨7, (2, 0), 0⟩, ⟨7, (2, 2), 0⟩], []⟩ =
      (.ok (),
       ⟨[⟨7, (0, 0), 0⟩, ⟨7, (0, 2), 0⟩, ⟨7, (2, 0), 0⟩, ⟨7, (2, 2), 0⟩], []⟩, []) := by
    rw [hsw]
    rfl
  exact (grid_sweep_coverage (fun _ _ => .ok []) 0 7 0 0 3 3 (5/2) 1
    ⟨[⟨7, (0, 0), 0⟩, ⟨7, (0, 2), 0⟩, ⟨7, (2, 0), 0⟩, ⟨7, (2, 2), 0⟩], []⟩
    (by norm_num) (by norm_num) (by norm_num) (by norm_num)
    (by norm_num) (by norm_num) ()
    ⟨[⟨7, (0, 0), 0⟩, ⟨7, (0, 2), 0⟩, ⟨7, (2, 0), 0⟩, ⟨7, (2, 2), 0⟩], []⟩ [] hrun).1

/-! ## C1: single-flight under concurrent callers -/

namespace SingleFlight

/-- The invariant holds initially when the tile is absent. -/
theorem inv_init {n : ℕ} (d : Date) (t : TileId) (s0 : Store)
    (hmiss : tile_exists d t s0 = false) : Inv d t (initState n s0) := by
  refine ⟨?_, ?_, ?_, ?_, ?_⟩
  · intro i hi
    rcases hi with h | h <;> simp [initState] at h
  · intro i h
    simp [initState] at h
  · intro i r h
    simp [initState] at h
  · intro h
    rw [show (initState n s0).store = s0 from rfl, hmiss] at h
    cases h
  · intro _
    refine ⟨?_, fun _ => rfl⟩
    rintro ⟨i, h⟩
    simp [initState] at h

/-- The invariant is preserved by every scheduler step. -/
theorem inv_step {n : ℕ} {d : Date} {t : TileId} {pts : List Point} {now : ℕ}
    {σ σ' : SFState n} (hst : Step d t pts now σ σ') (hinv : Inv d t σ) :
    Inv d t σ' := by
  obtain ⟨inv1, inv2, inv3, inv4, inv5⟩ := hinv
  cases hst with
  | acquire i hpc hlock =>
    refine ⟨?_, ?_, ?_, inv4, ?_⟩
    · intro j hj
      by_cases hji : j = i
      · simp [hji]
      · dsimp only at hj
        rw [Function.update_noteq hji] at hj
        have h2 := inv1 j hj
        rw [hlock] at h2
        exact absurd h2 (by simp)
    · intro j hj
      by_cases hji : j = i
      · dsimp only at hj
        rw [hji, Function.update_same] at hj
        cases hj
      · dsimp only at hj
        rw [Function.update_noteq hji] at hj
        exact inv2 j hj
    · intro j r hj
      by_cases hji : j = i
      · dsimp only at hj
        rw [hji, Function.update_same] at hj
        cases hj
      · dsimp only at hj
        rw [Function.update_noteq hji] at hj
        exact inv3 j r hj
    · intro hmiss
      refine ⟨?_, ?_⟩
      · rintro ⟨j, hj⟩
        by_cases hji : j = i
        · dsimp only at hj
          rw [hji, Function.update_same] at hj
          cases hj
        · dsimp only at hj
          rw [Function.update_noteq hji] at hj
          exact (inv5 hmiss).1 ⟨j, hj⟩
      · intro hall
        apply (inv5 hmiss).2
        intro j
        by_cases hji : j = i
        · rw [hji, hpc]
          simp
        · have h3 := hall j
          dsimp only at h3
          rw [Function.update_noteq hji] at h3
          exact h3
  | hit i hpc hex =>
    have hlocki := inv1 i (Or.inl hpc)
    refine ⟨?_, ?_, ?_, inv4, ?_⟩
    · intro j hj
      by_cases hji : j = i
      · dsimp only at hj
        rw [hji, Function.update_same] at hj
        rcases hj with h | h <;> cases h
      · dsimp only at hj
        rw [Function.update_noteq hji] at hj
        have h2 := inv1 j hj
        rw [hlocki] at h2
        exact absurd (Option.some.inj h2).symm hji
    · intro j hj
      by_cases hji : j = i
      · dsimp only at hj
        rw [hji, Function.update_same] at hj
        cases hj
      · dsimp only at hj
        rw [Function.update_noteq hji] at hj
        exact inv2 j hj
    · intro j r hj
      exact hex
    · intro hmiss
      simp [hex] at hmiss
  | startFetch i hpc hmx =>
    have hlocki := inv1 i (Or.inl hpc)
    have hnof : ∀ j, σ.pc j ≠ PC.fetching := by
      intro j hj
      have h2 := inv1 j (Or.inr hj)
      rw [hlocki] at h2
      have hji := Option.some.inj h2
      rw [← hji, hpc] at hj
      cases hj
    have hc0 : σ.calls = 0 := (inv5 hmx).2 hnof
    refine ⟨?_, ?_, ?_, ?_, ?_⟩
    · intro j hj
      by_cases hji : j = i
      · rw [hji]
        exact hlocki
      · dsimp only at hj
        rw [Function.update_noteq hji] at hj
        exact inv1 j hj
    · intro j hj
      exact hmx
    · intro j r hj
      by_cases hji : j = i
      · dsimp only at hj
        rw [hji, Function.update_same] at hj
        cases hj
      · dsimp only at hj
        rw [Function.update_noteq hji] at hj
        exact inv3 j r hj
    · intro h
      simp [h] at hmx
    · intro hmiss
      refine ⟨fun _ => ?_, fun hall => ?_⟩
      · show σ.calls + 1 = 1
        omega
      · have hfi := hall i
        dsimp only at hfi
        rw [Function.update_same] at hfi
        exact absurd rfl hfi
  | finishFetch i hpc =>
    have hlocki := inv1 i (Or.inr hpc)
    have hmx := inv2 i hpc
    have honef : σ.calls = 1 := (inv5 hmx).1 ⟨i, hpc⟩
    have hex2 : tile_exists d t (store_tile d t pts now σ.store).2 = true :=
      tile_exists_store_tile d t pts now σ.store
    have honly : ∀ j, j ≠ i → σ.pc j ≠ PC.locked ∧ σ.pc j ≠ PC.fetching := by
      intro j hji
      constructor
      · intro hj
        have h2 := inv1 j (Or.inl hj)
        rw [hlocki] at h2
        exact hji (Option.some.inj h2).symm
      · intro hj
        have h2 := inv1 j (Or.inr hj)
        rw [hlocki] at h2
        exact hji (Option.some.inj h2).symm
    refine ⟨?_, ?_, ?_, fun _ => honef, ?_⟩
    · intro j hj
      by_cases hji : j = i
      · dsimp only at hj
        rw [hji, Function.update_same] at hj
        rcases hj with h | h <;> cases h
      · dsimp only at hj
        rw [Function.update_noteq hji] at hj
        rcases hj with h | h
        · exact absurd h (honly j hji).1
        · exact absurd h (honly j hji).2
    · intro j hj
      by_cases hji : j = i
      · dsimp only at hj
        rw [hji, Function.update_same] at hj
        cases hj
      · dsimp only at hj
        rw [Function.update_noteq hji] at hj
        exact absurd hj (honly j hji).2
    · intro j r hj
      exact hex2
    · intro hmiss
      simp [hex2] at hmiss

/-- Every reachable state satisfies the invariant. -/
theorem inv_reach {n : ℕ} (d : Date) (t : TileId) (pts : List Point)
    (now : ℕ) (s0 : Store) (hmiss : tile_exists d t s0 = false)
    {σ : SFState n} (h : Reach d t pts now s0 σ) : Inv d t σ := by
  induction h with
  | init => exact inv_init d t s0 hmiss
  | step _ hst ih => exact inv_step hst ih

/-- C1.  For any number `n` of threads concurrently calling
`ensure_tile d t` on an initially-absent tile, in every reachable
interleaving: at most one thread is inside the external fetch at any time
(the per-key lock serializes them), the adapter has been invoked at most
once, and in every complete run (all threads returned, `n ≥ 1`) the
adapter was invoked exactly once — late arrivals observe the stored
outcome instead of refetching. -/
theorem single_flight {n : ℕ} (d : Date) (t : TileId) (pts : List Point)
    (now : ℕ) (s0 : Store) (σ : SFState n)
    (hmiss : tile_exists d t s0 = false)
    (hreach : Reach d t pts now s0 σ) :
    (∀ i j : Fin n, σ.pc i = .fetching → σ.pc j = .fetching → i = j) ∧
    σ.calls ≤ 1 ∧
    ((∀ i : Fin n, ∃ r, σ.pc i = PC.done r) → 0 < n → σ.calls = 1) := by
  obtain ⟨inv1, inv2, inv3, inv4, inv5⟩ := inv_reach d t pts now s0 hmiss hreach
  refine ⟨?_, ?_, ?_⟩
  · intro i j hi hj
    have h1 := inv1 i (Or.inr hi)
    have h2 := inv1 j (Or.inr hj)
    rw [h1] at h2
    exact Option.some.inj h2
  · by_cases hp : tile_exists d t σ.store = true
    · rw [inv4 hp]
    · have hb : tile_exists d t σ.store = false := by
        rw [Bool.not_eq_true] at hp
        exact hp
      by_cases hf : ∃ i, σ.pc i = PC.fetching
      · rw [(inv5 hb).1 hf]
      · rw [(inv5 hb).2 (not_exists.mp hf)]
        omega
  · intro hdone hn
    obtain ⟨r, hr⟩ := hdone ⟨0, hn⟩
    exact inv4 (inv3 ⟨0, hn⟩ r hr)

/-- Witness for C1: the explicit two-thread schedule `demo0 → … → demo5`
(thread 0 acquires, misses, fetches, stores, releases; thread 1 acquires,
hits) is a complete run and its adapter call count is exactly 1. -/
theorem single_flight_witness : demo5.calls = 1 := by
  have r1 : Reach 0 (0, 0) demoPts 0 ⟨[], []⟩ demo1 :=
    Reach.step Reach.init (Step.acquire demo0 0 rfl rfl)
  have r2 : Reach 0 (0, 0) demoPts 0 ⟨[], []⟩ demo2 :=
    Reach.step r1 (Step.startFetch demo1 0 (by simp [demo1, demo0, initState]) rfl)
  have r3 : Reach 0 (0, 0) demoPts 0 ⟨[], []⟩ demo3 :=
    Reach.step r2 (Step.finishFetch demo2 0 (by simp [demo2, demo1, demo0, initState]))
  have r4 : Reach 0 (0, 0) demoPts 0 ⟨[], []⟩ demo4 :=
    Reach.step r3 (Step.acquire demo3 1
      (by simp [demo3, demo2, demo1, demo0, initState, Function.update]) rfl)
  have r5 : Reach 0 (0, 0) demoPts 0 ⟨[], []⟩ demo5 :=
    Reach.step r4 (Step.hit demo4 1
      (by simp [demo4, demo3, demo2, demo1, demo0, initState, Function.update])
      (by rfl))
  refine (single_flight 0 (0, 0) demoPts 0 ⟨[], []⟩ demo5 rfl r5).2.2 ?_ (by norm_num)
  intro i
  fin_cases i
  · exact ⟨1, by simp [demo5, demo4, demo3, demo2, demo1, demo0, initState,
      demoPts, Function.update]⟩
  · exact ⟨0, by simp [demo5, demo4, Function.update]⟩

end SingleFlight
